import Mathlib

/-!
Formal verification of the spherical-manifold chart kernel and the canonical
mesh-generation interface of this repository.

The chart kernel (SphericalManifold) is embedded from
source/grid/manifold_lib.cc; real arithmetic stands in for the C++ doubles,
with the exact literal thresholds (1e-10) of the source kept.  The atan2 of
cmath is modelled by the argument function of a complex number, which has the
same piecewise definition and the same range (-pi, pi].  Division follows the
total real division of Lean (x / 0 = 0); the one place where the source
divides without a guard is analysed separately.

The grid-generator routines exist in the repository only as declarations and
interface documentation (deal.II/include/grid/grid_generator.h); their bodies
are therefore modelled from the spec, and each such definition is marked
accordingly in its doc comment.
-/

noncomputable section

/-- Ambient or chart point with two real coordinates (Point<2> of deal.II). -/
@[ext]
structure Point2 where
  x : ℝ
  y : ℝ

/-- Ambient or chart point with three real coordinates (Point<3> of deal.II). -/
@[ext]
structure Point3 where
  x : ℝ
  y : ℝ
  z : ℝ

instance : Zero Point2 := ⟨⟨0, 0⟩⟩

instance : Add Point2 := ⟨fun p q => ⟨p.x + q.x, p.y + q.y⟩⟩

instance : Sub Point2 := ⟨fun p q => ⟨p.x - q.x, p.y - q.y⟩⟩

instance : SMul ℝ Point2 := ⟨fun c p => ⟨c * p.x, c * p.y⟩⟩

instance : Zero Point3 := ⟨⟨0, 0, 0⟩⟩

instance : Add Point3 := ⟨fun p q => ⟨p.x + q.x, p.y + q.y, p.z + q.z⟩⟩

instance : Sub Point3 := ⟨fun p q => ⟨p.x - q.x, p.y - q.y, p.z - q.z⟩⟩

instance : SMul ℝ Point3 := ⟨fun c p => ⟨c * p.x, c * p.y, c * p.z⟩⟩

instance : AddCommMonoid Point2 where
  add_assoc a b c := by ext <;> exact add_assoc _ _ _
  zero_add a := by ext <;> exact zero_add _
  add_zero a := by ext <;> exact add_zero _
  add_comm a b := by ext <;> exact add_comm _ _
  nsmul := nsmulRec

instance : AddCommMonoid Point3 where
  add_assoc a b c := by ext <;> exact add_assoc _ _ _
  zero_add a := by ext <;> exact zero_add _
  add_zero a := by ext <;> exact add_zero _
  add_comm a b := by ext <;> exact add_comm _ _
  nsmul := nsmulRec

/-- Euclidean length of a Point<2>, the norm() member of deal.II points. -/
def Point2.norm (p : Point2) : ℝ := Real.sqrt (p.x ^ 2 + p.y ^ 2)

/-- Euclidean length of a Point<3>, the norm() member of deal.II points. -/
def Point3.norm (p : Point3) : ℝ := Real.sqrt (p.x ^ 2 + p.y ^ 2 + p.z ^ 2)

/-- Model of atan2 from cmath: the argument of the complex number x + y i,
which takes values in (-pi, pi], is pi on the negative real axis, and is 0 at
the origin, exactly as the C function on reals without signed zeros. -/
def atan2 (y x : ℝ) : ℝ := Complex.arg ⟨x, y⟩

/-- Spherical chart in ambient dimension 2 (SphericalManifold<dim,2> of
manifold_lib.cc); its only constructor parameter is the chart center. -/
structure SphericalManifold2 where
  center : Point2

/-- Spherical chart in ambient dimension 3 (SphericalManifold<dim,3> of
manifold_lib.cc); its only constructor parameter is the chart center. -/
structure SphericalManifold3 where
  center : Point3

/-- Periodicity vector built by SphericalManifold::get_periodicity for
spacedim = 2: a zero-initialized point whose last entry (index spacedim-1)
is set to 2 pi. -/
def get_periodicity2 : Point2 := ⟨0, 2 * Real.pi⟩

/-- Periodicity vector built by SphericalManifold::get_periodicity for
spacedim = 3: a zero-initialized point whose last entry (index spacedim-1)
is set to 2 pi; the other entries stay zero. -/
def get_periodicity3 : Point3 := ⟨0, 0, 2 * Real.pi⟩

/-- SphericalManifold::push_forward for spacedim = 2: chart coordinates are
(rho, theta) = (sp.x, sp.y); when rho > 1e-10 the Cartesian position is
(rho cos theta, rho sin theta), otherwise the zero-initialized point is kept,
and the center is added in either case. -/
def SphericalManifold2.push_forward (M : SphericalManifold2) (sp : Point2) : Point2 :=
  let rho := sp.x
  let theta := sp.y
  let p : Point2 := if rho > 1e-10 then ⟨rho * Real.cos theta, rho * Real.sin theta⟩ else 0
  p + M.center

/-- SphericalManifold::push_forward for spacedim = 3: chart coordinates are
(rho, theta, phi); when rho > 1e-10 the Cartesian position is
(rho sin theta cos phi, rho sin theta sin phi, rho cos theta), otherwise the
zero-initialized point is kept, and the center is added in either case. -/
def SphericalManifold3.push_forward (M : SphericalManifold3) (sp : Point3) : Point3 :=
  let rho := sp.x
  let theta := sp.y
  let phi := sp.z
  let p : Point3 :=
    if rho > 1e-10 then
      ⟨rho * Real.sin theta * Real.cos phi,
       rho * Real.sin theta * Real.sin phi,
       rho * Real.cos theta⟩
    else 0
  p + M.center

/-- SphericalManifold::pull_back for spacedim = 2: rho is the distance to the
center and the single angle is atan2(y, x), shifted by 2 pi when negative. -/
def SphericalManifold2.pull_back (M : SphericalManifold2) (sp : Point2) : Point2 :=
  let R := sp - M.center
  let t := atan2 R.y R.x
  ⟨R.norm, if t < 0 then t + 2 * Real.pi else t⟩

/-- SphericalManifold::pull_back for spacedim = 3: rho is the distance to the
center, phi = atan2(y, x) shifted by 2 pi when negative (phi is periodic), and
theta = atan2(sqrt(x*x+y*y), z) with no shift. -/
def SphericalManifold3.pull_back (M : SphericalManifold3) (sp : Point3) : Point3 :=
  let R := sp - M.center
  let rho := R.norm
  let phi0 := atan2 R.y R.x
  let phi := if phi0 < 0 then phi0 + 2 * Real.pi else phi0
  let theta := atan2 (Real.sqrt (R.x * R.x + R.y * R.y)) R.z
  ⟨rho, theta, phi⟩

/-- Modelled from the spec: the generic chart-space averaging rule of the base
class ManifoldChart::get_new_point, whose body is not under src (only the
SphericalManifold overrides are): pull each quadrature point back, take the
weighted combination in chart space, and push the result forward. -/
def ManifoldChart2.get_new_point (M : SphericalManifold2) (quad : List (ℝ × Point2)) : Point2 :=
  M.push_forward ((quad.map fun wp => wp.1 • M.pull_back wp.2).sum)

/-- SphericalManifold::get_new_point for spacedim = 2: the source tests
spacedim == 2 first and in that case delegates to the base-class chart rule. -/
def SphericalManifold2.get_new_point (M : SphericalManifold2) (quad : List (ℝ × Point2)) : Point2 :=
  ManifoldChart2.get_new_point M quad

/-- SphericalManifold::get_new_point for spacedim = 3, mirroring the source
loop: accumulate the weighted average distance to the center and the weighted
ambient average of the points, re-center the average, scale it by
rho_average / R.norm() (the source divides with no guard; real division by
zero yields zero here), and add the center back. -/
def SphericalManifold3.get_new_point (M : SphericalManifold3) (quad : List (ℝ × Point3)) : Point3 :=
  let acc := quad.foldl
    (fun a wp => (a.1 + wp.1 * (wp.2 - M.center).norm, a.2 + wp.1 • wp.2))
    ((0 : ℝ), (0 : Point3))
  let R := acc.2 - M.center
  M.center + (acc.1 / R.norm) • R

/-- Divisor used by the spacedim = 3 branch of get_new_point when it rescales
the re-centered average: the norm of R = mid_point - center, extracted here so
that its vanishing can be analysed. -/
def get_new_point_divisor (M : SphericalManifold3) (quad : List (ℝ × Point3)) : ℝ :=
  ((quad.foldl
    (fun a wp => (a.1 + wp.1 * (wp.2 - M.center).norm, a.2 + wp.1 • wp.2))
    ((0 : ℝ), (0 : Point3))).2 - M.center).norm

/-- Stated from the words of the spec, for comparison with the source loop of
get_new_point: the weighted average radius, rho-bar = sum of w_i * norm(p_i - center). -/
def spec_rho_bar (c : Point3) (quad : List (ℝ × Point3)) : ℝ :=
  (quad.map fun wp => wp.1 * (wp.2 - c).norm).sum

/-- Stated from the words of the spec, for comparison with the source loop of
get_new_point: the weighted average point m = sum of w_i * p_i in ambient space. -/
def spec_mid_point (quad : List (ℝ × Point3)) : Point3 :=
  (quad.map fun wp => wp.1 • wp.2).sum

/-- Ambient point with dim real coordinates, for the mesh-generator interface. -/
abbrev Pt (dim : ℕ) := Fin dim → ℝ

/-- Boundary face of a generated axis-aligned mesh: the axis it is orthogonal
to, whether it sits at the larger coordinate of that axis, the coordinate
value of its plane, and the boundary id assigned to it. -/
structure BoundaryFace (dim : ℕ) where
  axis : Fin dim
  upper : Bool
  coordinate : ℝ
  boundary_id : ℕ

/-- Mesh container as far as the interface of grid_generator.h uses it:
vertex positions, cell connectivity, colorized boundary faces and material
ids.  The triangulation class itself is an external collaborator. -/
structure Mesh (dim : ℕ) where
  n_vertices : ℕ
  vertex_pos : ℕ → Pt dim
  cells : List (List ℕ)
  faces : List (BoundaryFace dim)
  material_ids : List ℕ

/-- Modelled from the spec: the failure kinds that the grid-generator
routines report.  invalidRepetitions and invalidRepetitionsDimension carry
the offending value like the DeclException1 declarations ExcInvalidRepetitions
and ExcInvalidRepetitionsDimension of grid_generator.h; invalidRadii is
ExcInvalidRadii; unsupportedDimension and notImplemented are the spec's
UnsupportedDimension and NotImplemented conditions. -/
inductive MeshError where
  | invalidRepetitions (n : ℤ)
  | invalidRepetitionsDimension (n : ℤ)
  | invalidRadii
  | unsupportedDimension (d : ℕ)
  | notImplemented
deriving DecidableEq

namespace GridGenerator

/-- Modelled from the spec: the boundary face of a colorizable rectangle in
axis k.  With colorize set, the face at the minimum coordinate of axis k gets
boundary id 2k and the one at the maximum coordinate gets 2k+1 (the documented
convention of hyper_rectangle and colorize_hyper_rectangle); without colorize
the default id 0 is kept. -/
def rectangle_face {dim : ℕ} (p1 p2 : Pt dim) (colorize : Bool) (k : Fin dim)
    (upper : Bool) : BoundaryFace dim :=
  { axis := k
    upper := upper
    coordinate := if upper then max (p1 k) (p2 k) else min (p1 k) (p2 k)
    boundary_id := if colorize then 2 * k.val + (if upper then 1 else 0) else 0 }

/-- Modelled from the spec: GridGenerator::hyper_rectangle (body not under
src) builds the single cell spanning the axis-aligned box with opposite
corners p1 and p2; the 2^dim corner vertices are enumerated in binary order
and the 2*dim boundary faces are listed per axis, lower face first. -/
def hyper_rectangle {dim : ℕ} (p1 p2 : Pt dim) (colorize : Bool) : Mesh dim :=
  { n_vertices := 2 ^ dim
    vertex_pos := fun i k =>
      if i / 2 ^ k.val % 2 = 1 then max (p1 k) (p2 k) else min (p1 k) (p2 k)
    cells := [List.range (2 ^ dim)]
    faces := (List.finRange dim).flatMap fun k =>
      [rectangle_face p1 p2 colorize k false, rectangle_face p1 p2 colorize k true]
    material_ids := [0] }

/-- Modelled from the spec: GridGenerator::subdivided_hyper_rectangle (body
not under src).  The repetitions vector must have dim entries, each at least
1, otherwise the call fails before any mesh is produced; on success the box is
tiled with (product of repetitions) cells and the faces follow the same
colorization convention as hyper_rectangle.  The interior connectivity is not
the subject of any claim and is kept as a cell list of the documented
length. -/
def subdivided_hyper_rectangle {dim : ℕ} (repetitions : List ℕ) (p1 p2 : Pt dim)
    (colorize : Bool) : Except MeshError (Mesh dim) :=
  if repetitions.length ≠ dim then .error (.invalidRepetitionsDimension dim)
  else if 0 ∈ repetitions then .error (.invalidRepetitions 0)
  else .ok { hyper_rectangle p1 p2 colorize with
             cells := (List.range repetitions.prod).map fun i => [i] }

/-- Modelled from the spec: GridGenerator::hyper_shell (body not under src).
A 1-D call is geometrically undefined; the radii have to be positive and
ordered, otherwise the ExcInvalidRadii condition is reported; the 3-D variant
is documented as not implemented.  The accepted 2-D branch returns a mesh
with the requested number of cells (the auto-selection for n_cells = 0 is an
implementation choice that the spec leaves open). -/
def hyper_shell (dim : ℕ) (center : Pt dim) (inner_radius outer_radius : ℝ)
    (n_cells : ℕ) : Except MeshError (Mesh dim) :=
  if dim = 1 then .error (.unsupportedDimension 1)
  else if inner_radius ≤ 0 ∨ outer_radius ≤ 0 ∨ outer_radius ≤ inner_radius then
    .error .invalidRadii
  else if dim = 3 then .error .notImplemented
  else .ok { n_vertices := 2 * n_cells
             vertex_pos := fun _ => center
             cells := (List.range n_cells).map fun i => [i]
             faces := []
             material_ids := [] }

/-- Modelled from the spec: GridGenerator::hyper_L (body not under src).  A
1-D call is an error; otherwise the L-shaped domain is built from 2^dim - 1
cells (their connectivity is not the subject of any claim). -/
def hyper_L (dim : ℕ) (left right : ℝ) : Except MeshError (Mesh dim) :=
  if dim = 1 then .error (.unsupportedDimension 1)
  else .ok { n_vertices := 0
             vertex_pos := fun _ _ => left
             cells := (List.range (2 ^ dim - 1)).map fun i => [i]
             faces := []
             material_ids := [] }

/-- Modelled from the spec: GridGenerator::hyper_ball (body not under src).
A 1-D call is an error; the 3-D variant is documented as presently not
implemented; the 2-D disc is built from 5 cells. -/
def hyper_ball (dim : ℕ) (center : Pt dim) (radius : ℝ) : Except MeshError (Mesh dim) :=
  if dim = 1 then .error (.unsupportedDimension 1)
  else if dim = 3 then .error .notImplemented
  else .ok { n_vertices := 0
             vertex_pos := fun _ => center
             cells := (List.range 5).map fun i => [i]
             faces := []
             material_ids := [] }

/-- Modelled from the spec: GridGenerator::hyper_cube_slit (body not under
src).  A 1-D call is an error; the slit connectivity itself is not the
subject of any claim. -/
def hyper_cube_slit (dim : ℕ) (left right : ℝ) (colorize : Bool) :
    Except MeshError (Mesh dim) :=
  if dim = 1 then .error (.unsupportedDimension 1)
  else .ok { n_vertices := 0
             vertex_pos := fun _ _ => left
             cells := (List.range 4).map fun i => [i]
             faces := []
             material_ids := [] }

/-- Modelled from the spec: GridGenerator::laplace_solve (declaration only in
src).  One discrete Laplace solve with Dirichlet data given by the constraint
map m: at a constrained index the solution is exactly the Dirichlet value,
while the unconstrained unknowns come from the sparse linear solver, which is
an external collaborator per the spec and is represented by the free_solution
argument. -/
def laplace_solve (m : ℕ → Option ℝ) (free_solution : ℕ → ℝ) (i : ℕ) : ℝ :=
  match m i with
  | some v => v
  | none => free_solution i

/-- Modelled from the spec: GridGenerator::laplace_transformation (declaration
only in src) solves one discrete Laplace problem per ambient coordinate axis,
with Dirichlet data the corresponding coordinate of new_points, and overwrites
every vertex position with the per-axis solutions; the topology (cells),
boundary faces and material ids are untouched. -/
def laplace_transformation {dim : ℕ} (tria : Mesh dim)
    (new_points : ℕ → Option (Pt dim)) (free_solution : ℕ → Pt dim) : Mesh dim :=
  { tria with
    vertex_pos := fun i k =>
      laplace_solve (fun j => Option.map (fun p => p k) (new_points j))
        (fun j => free_solution j k) i }

end GridGenerator

/-!
Helper lemmas: componentwise arithmetic, norms, and the atan2 model.
-/

@[simp] theorem Point2.zero_x2 : (0 : Point2).x = 0 := rfl

@[simp] theorem Point2.zero_y2 : (0 : Point2).y = 0 := rfl

@[simp] theorem Point2.add_x2 (p q : Point2) : (p + q).x = p.x + q.x := rfl

@[simp] theorem Point2.add_y2 (p q : Point2) : (p + q).y = p.y + q.y := rfl

@[simp] theorem Point2.sub_x2 (p q : Point2) : (p - q).x = p.x - q.x := rfl

@[simp] theorem Point2.sub_y2 (p q : Point2) : (p - q).y = p.y - q.y := rfl

@[simp] theorem Point2.smul_x2 (c : ℝ) (p : Point2) : (c • p).x = c * p.x := rfl

@[simp] theorem Point2.smul_y2 (c : ℝ) (p : Point2) : (c • p).y = c * p.y := rfl

@[simp] theorem Point3.zero_x3 : (0 : Point3).x = 0 := rfl

@[simp] theorem Point3.zero_y3 : (0 : Point3).y = 0 := rfl

@[simp] theorem Point3.zero_z3 : (0 : Point3).z = 0 := rfl

@[simp] theorem Point3.add_x3 (p q : Point3) : (p + q).x = p.x + q.x := rfl

@[simp] theorem Point3.add_y3 (p q : Point3) : (p + q).y = p.y + q.y := rfl

@[simp] theorem Point3.add_z3 (p q : Point3) : (p + q).z = p.z + q.z := rfl

@[simp] theorem Point3.sub_x3 (p q : Point3) : (p - q).x = p.x - q.x := rfl

@[simp] theorem Point3.sub_y3 (p q : Point3) : (p - q).y = p.y - q.y := rfl

@[simp] theorem Point3.sub_z3 (p q : Point3) : (p - q).z = p.z - q.z := rfl

@[simp] theorem Point3.smul_x3 (c : ℝ) (p : Point3) : (c • p).x = c * p.x := rfl

@[simp] theorem Point3.smul_y3 (c : ℝ) (p : Point3) : (c • p).y = c * p.y := rfl

@[simp] theorem Point3.smul_z3 (c : ℝ) (p : Point3) : (c • p).z = c * p.z := rfl

@[simp] theorem Point2.mk_x2 (a b : ℝ) : (Point2.mk a b).x = a := rfl

@[simp] theorem Point2.mk_y2 (a b : ℝ) : (Point2.mk a b).y = b := rfl

@[simp] theorem Point3.mk_x3 (a b c : ℝ) : (Point3.mk a b c).x = a := rfl

@[simp] theorem Point3.mk_y3 (a b c : ℝ) : (Point3.mk a b c).y = b := rfl

@[simp] theorem Point3.mk_z3 (a b c : ℝ) : (Point3.mk a b c).z = c := rfl

theorem Point2.norm_nonneg2 (p : Point2) : 0 ≤ p.norm := Real.sqrt_nonneg _

theorem Point3.norm_nonneg3 (p : Point3) : 0 ≤ p.norm := Real.sqrt_nonneg _

theorem Point2.norm_eq_zero_iff2 (p : Point2) : p.norm = 0 ↔ p = 0 := by
  unfold Point2.norm
  rw [Real.sqrt_eq_zero (by positivity)]
  constructor
  · intro h
    have hx : p.x ^ 2 = 0 := le_antisymm (by nlinarith [sq_nonneg p.y]) (sq_nonneg _)
    have hy : p.y ^ 2 = 0 := le_antisymm (by nlinarith [sq_nonneg p.x]) (sq_nonneg _)
    ext
    · exact pow_eq_zero_iff two_ne_zero |>.mp hx
    · exact pow_eq_zero_iff two_ne_zero |>.mp hy
  · intro h; rw [h]; simp

theorem Point3.norm_eq_zero_iff3 (p : Point3) : p.norm = 0 ↔ p = 0 := by
  unfold Point3.norm
  rw [Real.sqrt_eq_zero (by positivity)]
  constructor
  · intro h
    have hx : p.x ^ 2 = 0 :=
      le_antisymm (by nlinarith [sq_nonneg p.y, sq_nonneg p.z]) (sq_nonneg _)
    have hy : p.y ^ 2 = 0 :=
      le_antisymm (by nlinarith [sq_nonneg p.x, sq_nonneg p.z]) (sq_nonneg _)
    have hz : p.z ^ 2 = 0 :=
      le_antisymm (by nlinarith [sq_nonneg p.x, sq_nonneg p.y]) (sq_nonneg _)
    ext
    · exact pow_eq_zero_iff two_ne_zero |>.mp hx
    · exact pow_eq_zero_iff two_ne_zero |>.mp hy
    · exact pow_eq_zero_iff two_ne_zero |>.mp hz
  · intro h; rw [h]; simp [Point3.norm]

theorem Point3.norm_smul3 (c : ℝ) (p : Point3) : (c • p).norm = |c| * p.norm := by
  unfold Point3.norm
  have h : (c • p).x ^ 2 + (c • p).y ^ 2 + (c • p).z ^ 2
      = c ^ 2 * (p.x ^ 2 + p.y ^ 2 + p.z ^ 2) := by simp; ring
  rw [h, Real.sqrt_mul (sq_nonneg c), Real.sqrt_sq_eq_abs]

theorem Point2.norm_sub_symm2 (p q : Point2) : (p - q).norm = (q - p).norm := by
  unfold Point2.norm
  congr 1
  simp
  ring

theorem Point3.norm_sub_symm3 (p q : Point3) : (p - q).norm = (q - p).norm := by
  unfold Point3.norm
  congr 1
  simp
  ring

theorem atan2_le_pi (y x : ℝ) : atan2 y x ≤ Real.pi := Complex.arg_le_pi _

theorem neg_pi_lt_atan2 (y x : ℝ) : -Real.pi < atan2 y x := Complex.neg_pi_lt_arg _

theorem atan2_nonneg_iff (y x : ℝ) : 0 ≤ atan2 y x ↔ 0 ≤ y :=
  @Complex.arg_nonneg_iff ⟨x, y⟩

theorem atan2_neg_iff (y x : ℝ) : atan2 y x < 0 ↔ y < 0 :=
  @Complex.arg_neg_iff ⟨x, y⟩

theorem atan2_zero_zero : atan2 0 0 = 0 := by
  have h : ((⟨0, 0⟩ : ℂ)) = 0 := by apply Complex.ext <;> simp
  rw [atan2, h, Complex.arg_zero]

theorem atan2_scale {r : ℝ} (hr : 0 < r) (y x : ℝ) :
    atan2 (r * y) (r * x) = atan2 y x := by
  have h : (⟨r * x, r * y⟩ : ℂ) = (r : ℝ) * ⟨x, y⟩ := by
    apply Complex.ext <;>
      simp [Complex.mul_re, Complex.mul_im, Complex.ofReal_re, Complex.ofReal_im]
  rw [atan2, h, Complex.arg_real_mul _ hr]
  rfl

theorem atan2_sin_cos {θ : ℝ} (h1 : -Real.pi < θ) (h2 : θ ≤ Real.pi) :
    atan2 (Real.sin θ) (Real.cos θ) = θ := by
  rw [atan2, Complex.mk_eq_add_mul_I, Complex.ofReal_cos, Complex.ofReal_sin]
  exact Complex.arg_cos_add_sin_mul_I (Set.mem_Ioc.mpr ⟨h1, h2⟩)

theorem normalized_atan2_sin_cos {θ : ℝ} (h0 : 0 ≤ θ) (h2 : θ < 2 * Real.pi) :
    (if atan2 (Real.sin θ) (Real.cos θ) < 0
      then atan2 (Real.sin θ) (Real.cos θ) + 2 * Real.pi
      else atan2 (Real.sin θ) (Real.cos θ)) = θ := by
  rcases le_or_lt θ Real.pi with hle | hgt
  · have ha : atan2 (Real.sin θ) (Real.cos θ) = θ :=
      atan2_sin_cos (by linarith [Real.pi_pos]) hle
    rw [ha, if_neg (not_lt.mpr h0)]
  · have hs : Real.sin θ = Real.sin (θ - 2 * Real.pi) := (Real.sin_sub_two_pi θ).symm
    have hc : Real.cos θ = Real.cos (θ - 2 * Real.pi) := (Real.cos_sub_two_pi θ).symm
    have ha : atan2 (Real.sin θ) (Real.cos θ) = θ - 2 * Real.pi := by
      rw [hs, hc]
      exact atan2_sin_cos (by linarith) (by linarith [Real.pi_pos])
    rw [ha, if_pos (by linarith)]
    ring

theorem cos_atan2 {y x : ℝ} (h : ¬(x = 0 ∧ y = 0)) :
    Real.cos (atan2 y x) = x / Real.sqrt (x ^ 2 + y ^ 2) := by
  have hz : (⟨x, y⟩ : ℂ) ≠ 0 := by
    intro hc
    exact h ⟨congrArg Complex.re hc, congrArg Complex.im hc⟩
  have habs : Complex.abs ⟨x, y⟩ = Real.sqrt (x ^ 2 + y ^ 2) := by
    rw [Complex.abs_apply, Complex.normSq_mk]
    congr 1
    ring
  rw [atan2, Complex.cos_arg hz, habs]

theorem sin_atan2 (y x : ℝ) :
    Real.sin (atan2 y x) = y / Real.sqrt (x ^ 2 + y ^ 2) := by
  have habs : Complex.abs ⟨x, y⟩ = Real.sqrt (x ^ 2 + y ^ 2) := by
    rw [Complex.abs_apply, Complex.normSq_mk]
    congr 1
    ring
  rw [atan2, Complex.sin_arg, habs]

theorem cos_normalized (t : ℝ) :
    Real.cos (if t < 0 then t + 2 * Real.pi else t) = Real.cos t := by
  by_cases h : t < 0 <;> simp [h, Real.cos_add_two_pi]

theorem sin_normalized (t : ℝ) :
    Real.sin (if t < 0 then t + 2 * Real.pi else t) = Real.sin t := by
  by_cases h : t < 0 <;> simp [h, Real.sin_add_two_pi]

theorem SphericalManifold2.push_forward_eval2 (M : SphericalManifold2) (sp : Point2) :
    M.push_forward sp =
      (if sp.x > 1e-10
        then Point2.mk (sp.x * Real.cos sp.y) (sp.x * Real.sin sp.y)
        else 0) + M.center := rfl

theorem SphericalManifold2.pull_back_eval2 (M : SphericalManifold2) (sp : Point2) :
    M.pull_back sp = Point2.mk ((sp - M.center).norm)
      (if atan2 (sp - M.center).y (sp - M.center).x < 0
        then atan2 (sp - M.center).y (sp - M.center).x + 2 * Real.pi
        else atan2 (sp - M.center).y (sp - M.center).x) := rfl

theorem SphericalManifold3.push_forward_eval3 (M : SphericalManifold3) (sp : Point3) :
    M.push_forward sp =
      (if sp.x > 1e-10
        then Point3.mk (sp.x * Real.sin sp.y * Real.cos sp.z)
          (sp.x * Real.sin sp.y * Real.sin sp.z) (sp.x * Real.cos sp.y)
        else 0) + M.center := rfl

theorem SphericalManifold3.pull_back_eval3 (M : SphericalManifold3) (sp : Point3) :
    M.pull_back sp = Point3.mk ((sp - M.center).norm)
      (atan2 (Real.sqrt ((sp - M.center).x * (sp - M.center).x +
        (sp - M.center).y * (sp - M.center).y)) (sp - M.center).z)
      (if atan2 (sp - M.center).y (sp - M.center).x < 0
        then atan2 (sp - M.center).y (sp - M.center).x + 2 * Real.pi
        else atan2 (sp - M.center).y (sp - M.center).x) := rfl

theorem pull_push2 (M : SphericalManifold2) (p : Point2)
    (hρ : p.x > 1e-10) (h0 : 0 ≤ p.y) (h2 : p.y < 2 * Real.pi) :
    M.pull_back (M.push_forward p) = p := by
  have hρ0 : (0 : ℝ) < p.x := lt_trans (by norm_num) hρ
  rw [SphericalManifold2.push_forward_eval2 M p, if_pos hρ, SphericalManifold2.pull_back_eval2]
  have e2 : (Point2.mk (p.x * Real.cos p.y) (p.x * Real.sin p.y)) + M.center - M.center
      = Point2.mk (p.x * Real.cos p.y) (p.x * Real.sin p.y) := by
    ext <;> simp
  rw [e2]
  refine Point2.ext ?_ ?_
  · show (Point2.mk (p.x * Real.cos p.y) (p.x * Real.sin p.y)).norm = p.x
    unfold Point2.norm
    show Real.sqrt ((p.x * Real.cos p.y) ^ 2 + (p.x * Real.sin p.y) ^ 2) = p.x
    have hpyth : (p.x * Real.cos p.y) ^ 2 + (p.x * Real.sin p.y) ^ 2 = p.x ^ 2 := by
      nlinarith [Real.sin_sq_add_cos_sq p.y]
    rw [hpyth, Real.sqrt_sq hρ0.le]
  · show (if atan2 (p.x * Real.sin p.y) (p.x * Real.cos p.y) < 0
        then atan2 (p.x * Real.sin p.y) (p.x * Real.cos p.y) + 2 * Real.pi
        else atan2 (p.x * Real.sin p.y) (p.x * Real.cos p.y)) = p.y
    rw [atan2_scale hρ0]
    exact normalized_atan2_sin_cos h0 h2

theorem push_pull2 (M : SphericalManifold2) (q : Point2) :
    (M.push_forward (M.pull_back q) - q).norm ≤ 1e-9 := by
  rw [SphericalManifold2.pull_back_eval2, SphericalManifold2.push_forward_eval2]
  simp only [Point2.mk_x2, Point2.mk_y2]
  by_cases hcase : (q - M.center).norm > 1e-10
  · rw [if_pos hcase]
    have hρ0 : (0 : ℝ) < (q - M.center).norm := lt_trans (by norm_num) hcase
    have hRne : ¬((q - M.center).x = 0 ∧ (q - M.center).y = 0) := by
      rintro ⟨hx, hy⟩
      have hz : (q - M.center).norm = 0 := by
        unfold Point2.norm
        rw [hx, hy]
        simp
      linarith
    have hsqrt : Real.sqrt ((q - M.center).x ^ 2 + (q - M.center).y ^ 2)
        = (q - M.center).norm := rfl
    have hcos : Real.cos (if atan2 (q - M.center).y (q - M.center).x < 0
          then atan2 (q - M.center).y (q - M.center).x + 2 * Real.pi
          else atan2 (q - M.center).y (q - M.center).x)
        = (q - M.center).x / (q - M.center).norm := by
      rw [cos_normalized, cos_atan2 hRne, hsqrt]
    have hsin : Real.sin (if atan2 (q - M.center).y (q - M.center).x < 0
          then atan2 (q - M.center).y (q - M.center).x + 2 * Real.pi
          else atan2 (q - M.center).y (q - M.center).x)
        = (q - M.center).y / (q - M.center).norm := by
      rw [sin_normalized, sin_atan2, hsqrt]
    rw [hcos, hsin]
    have hres : Point2.mk
        ((q - M.center).norm * ((q - M.center).x / (q - M.center).norm))
        ((q - M.center).norm * ((q - M.center).y / (q - M.center).norm))
        + M.center - q = (0 : Point2) := by
      ext
      · show (q - M.center).norm * ((q - M.center).x / (q - M.center).norm)
            + M.center.x - q.x = 0
        rw [mul_comm, div_mul_cancel₀ _ (ne_of_gt hρ0)]
        simp
      · show (q - M.center).norm * ((q - M.center).y / (q - M.center).norm)
            + M.center.y - q.y = 0
        rw [mul_comm, div_mul_cancel₀ _ (ne_of_gt hρ0)]
        simp
    rw [hres]
    unfold Point2.norm
    simp
    norm_num
  · rw [if_neg hcase]
    have e0 : ((0 : Point2) + M.center) - q = M.center - q := by ext <;> simp
    rw [e0, Point2.norm_sub_symm2]
    have hle : (q - M.center).norm ≤ 1e-10 := not_lt.mp hcase
    linarith [show (1e-10 : ℝ) ≤ 1e-9 by norm_num]

theorem pull_push3 (M : SphericalManifold3) (p : Point3)
    (hρ : p.x > 1e-10) (hθ0 : 0 < p.y) (hθπ : p.y < Real.pi)
    (hφ0 : 0 ≤ p.z) (hφ2 : p.z < 2 * Real.pi) :
    M.pull_back (M.push_forward p) = p := by
  have hρ0 : (0 : ℝ) < p.x := lt_trans (by norm_num) hρ
  have hsθ : 0 < Real.sin p.y := Real.sin_pos_of_pos_of_lt_pi hθ0 hθπ
  rw [SphericalManifold3.push_forward_eval3, if_pos hρ, SphericalManifold3.pull_back_eval3]
  have e2 : Point3.mk (p.x * Real.sin p.y * Real.cos p.z)
        (p.x * Real.sin p.y * Real.sin p.z) (p.x * Real.cos p.y)
      + M.center - M.center
      = Point3.mk (p.x * Real.sin p.y * Real.cos p.z)
        (p.x * Real.sin p.y * Real.sin p.z) (p.x * Real.cos p.y) := by
    ext <;> simp
  rw [e2]
  simp only [Point3.mk_x3, Point3.mk_y3, Point3.mk_z3]
  have hsum : p.x * Real.sin p.y * Real.cos p.z * (p.x * Real.sin p.y * Real.cos p.z)
      + p.x * Real.sin p.y * Real.sin p.z * (p.x * Real.sin p.y * Real.sin p.z)
      = (p.x * Real.sin p.y) ^ 2 := by
    linear_combination (p.x * Real.sin p.y) ^ 2 * Real.sin_sq_add_cos_sq p.z
  have hs : Real.sqrt (p.x * Real.sin p.y * Real.cos p.z * (p.x * Real.sin p.y * Real.cos p.z)
        + p.x * Real.sin p.y * Real.sin p.z * (p.x * Real.sin p.y * Real.sin p.z))
      = p.x * Real.sin p.y := by
    rw [hsum, Real.sqrt_sq (by positivity)]
  refine Point3.ext ?_ ?_ ?_
  · show (Point3.mk (p.x * Real.sin p.y * Real.cos p.z)
        (p.x * Real.sin p.y * Real.sin p.z) (p.x * Real.cos p.y)).norm = p.x
    unfold Point3.norm
    simp only [Point3.mk_x3, Point3.mk_y3, Point3.mk_z3]
    have hx2 : (p.x * Real.sin p.y * Real.cos p.z) ^ 2
        + (p.x * Real.sin p.y * Real.sin p.z) ^ 2 + (p.x * Real.cos p.y) ^ 2
        = p.x ^ 2 := by
      linear_combination (p.x ^ 2 * Real.sin p.y ^ 2) * Real.sin_sq_add_cos_sq p.z
        + p.x ^ 2 * Real.sin_sq_add_cos_sq p.y
    rw [hx2, Real.sqrt_sq hρ0.le]
  · show atan2 (Real.sqrt _) (p.x * Real.cos p.y) = p.y
    rw [hs, atan2_scale hρ0, atan2_sin_cos (by linarith) hθπ.le]
  · show (if atan2 (p.x * Real.sin p.y * Real.sin p.z) (p.x * Real.sin p.y * Real.cos p.z) < 0
        then atan2 (p.x * Real.sin p.y * Real.sin p.z) (p.x * Real.sin p.y * Real.cos p.z)
          + 2 * Real.pi
        else atan2 (p.x * Real.sin p.y * Real.sin p.z)
          (p.x * Real.sin p.y * Real.cos p.z)) = p.z
    rw [atan2_scale (mul_pos hρ0 hsθ)]
    exact normalized_atan2_sin_cos hφ0 hφ2

theorem push_pull3_exact (M : SphericalManifold3) (q : Point3)
    (hcase : (q - M.center).norm > 1e-10) :
    M.push_forward (M.pull_back q) = q := by
  rw [SphericalManifold3.pull_back_eval3, SphericalManifold3.push_forward_eval3]
  simp only [Point3.mk_x3, Point3.mk_y3, Point3.mk_z3]
  rw [if_pos hcase]
  have hρ0 : (0 : ℝ) < (q - M.center).norm := lt_trans (by norm_num) hcase
  have hρne : (q - M.center).norm ≠ 0 := ne_of_gt hρ0
  have hs_nonneg : 0 ≤ Real.sqrt ((q - M.center).x * (q - M.center).x +
      (q - M.center).y * (q - M.center).y) := Real.sqrt_nonneg _
  have hs_sq : Real.sqrt ((q - M.center).x * (q - M.center).x +
        (q - M.center).y * (q - M.center).y) ^ 2
      = (q - M.center).x ^ 2 + (q - M.center).y ^ 2 := by
    rw [Real.sq_sqrt (add_nonneg (mul_self_nonneg _) (mul_self_nonneg _))]
    ring
  have habs : Real.sqrt ((q - M.center).z ^ 2 +
        Real.sqrt ((q - M.center).x * (q - M.center).x +
          (q - M.center).y * (q - M.center).y) ^ 2)
      = (q - M.center).norm := by
    rw [hs_sq]
    unfold Point3.norm
    congr 1
    ring
  have hzs_ne : ¬((q - M.center).z = 0 ∧
      Real.sqrt ((q - M.center).x * (q - M.center).x +
        (q - M.center).y * (q - M.center).y) = 0) := by
    rintro ⟨hz, hsz⟩
    have h1 : (q - M.center).x * (q - M.center).x +
        (q - M.center).y * (q - M.center).y = 0 :=
      (Real.sqrt_eq_zero (add_nonneg (mul_self_nonneg _) (mul_self_nonneg _))).mp hsz
    have hx : (q - M.center).x = 0 := by nlinarith [sq_nonneg (q - M.center).x, sq_nonneg (q - M.center).y]
    have hy : (q - M.center).y = 0 := by nlinarith [sq_nonneg (q - M.center).x, sq_nonneg (q - M.center).y]
    apply hρne
    unfold Point3.norm
    rw [hx, hy, hz]
    simp
  have hsin_theta : Real.sin (atan2 (Real.sqrt ((q - M.center).x * (q - M.center).x +
        (q - M.center).y * (q - M.center).y)) (q - M.center).z)
      = Real.sqrt ((q - M.center).x * (q - M.center).x +
        (q - M.center).y * (q - M.center).y) / (q - M.center).norm := by
    rw [sin_atan2, habs]
  have hcos_theta : Real.cos (atan2 (Real.sqrt ((q - M.center).x * (q - M.center).x +
        (q - M.center).y * (q - M.center).y)) (q - M.center).z)
      = (q - M.center).z / (q - M.center).norm := by
    rw [cos_atan2 hzs_ne, habs]
  rw [hsin_theta, hcos_theta]
  by_cases hs : Real.sqrt ((q - M.center).x * (q - M.center).x +
      (q - M.center).y * (q - M.center).y) = 0
  · have h1 : (q - M.center).x * (q - M.center).x +
        (q - M.center).y * (q - M.center).y = 0 :=
      (Real.sqrt_eq_zero (add_nonneg (mul_self_nonneg _) (mul_self_nonneg _))).mp hs
    have hx : (q - M.center).x = 0 := by nlinarith [sq_nonneg (q - M.center).x, sq_nonneg (q - M.center).y]
    have hy : (q - M.center).y = 0 := by nlinarith [sq_nonneg (q - M.center).x, sq_nonneg (q - M.center).y]
    rw [hs]
    refine Point3.ext ?_ ?_ ?_
    · show (q - M.center).norm * (0 / (q - M.center).norm) * Real.cos _ + M.center.x = q.x
      have hx' : q.x - M.center.x = 0 := by simpa using hx
      rw [zero_div, mul_zero, zero_mul]
      linarith
    · show (q - M.center).norm * (0 / (q - M.center).norm) * Real.sin _ + M.center.y = q.y
      have hy' : q.y - M.center.y = 0 := by simpa using hy
      rw [zero_div, mul_zero, zero_mul]
      linarith
    · show (q - M.center).norm * ((q - M.center).z / (q - M.center).norm) + M.center.z = q.z
      rw [mul_comm, div_mul_cancel₀ _ hρne]
      show q.z - M.center.z + M.center.z = q.z
      ring
  · have hs_pos : 0 < Real.sqrt ((q - M.center).x * (q - M.center).x +
        (q - M.center).y * (q - M.center).y) :=
      lt_of_le_of_ne hs_nonneg (Ne.symm hs)
    have hxy_ne : ¬((q - M.center).x = 0 ∧ (q - M.center).y = 0) := by
      rintro ⟨hx, hy⟩
      apply hs
      rw [hx, hy]
      simp
    have hsqrt_xy : Real.sqrt ((q - M.center).x ^ 2 + (q - M.center).y ^ 2)
        = Real.sqrt ((q - M.center).x * (q - M.center).x +
          (q - M.center).y * (q - M.center).y) := by
      congr 1
      ring
    have hcos_phi : Real.cos (if atan2 (q - M.center).y (q - M.center).x < 0
          then atan2 (q - M.center).y (q - M.center).x + 2 * Real.pi
          else atan2 (q - M.center).y (q - M.center).x)
        = (q - M.center).x / Real.sqrt ((q - M.center).x * (q - M.center).x +
          (q - M.center).y * (q - M.center).y) := by
      rw [cos_normalized, cos_atan2 hxy_ne, hsqrt_xy]
    have hsin_phi : Real.sin (if atan2 (q - M.center).y (q - M.center).x < 0
          then atan2 (q - M.center).y (q - M.center).x + 2 * Real.pi
          else atan2 (q - M.center).y (q - M.center).x)
        = (q - M.center).y / Real.sqrt ((q - M.center).x * (q - M.center).x +
          (q - M.center).y * (q - M.center).y) := by
      rw [sin_normalized, sin_atan2, hsqrt_xy]
    rw [hcos_phi, hsin_phi]
    refine Point3.ext ?_ ?_ ?_
    · show (q - M.center).norm * (Real.sqrt ((q - M.center).x * (q - M.center).x +
          (q - M.center).y * (q - M.center).y) / (q - M.center).norm) *
          ((q - M.center).x / Real.sqrt ((q - M.center).x * (q - M.center).x +
            (q - M.center).y * (q - M.center).y)) + M.center.x = q.x
      have hX : (q - M.center).norm * (Real.sqrt ((q - M.center).x * (q - M.center).x +
          (q - M.center).y * (q - M.center).y) / (q - M.center).norm) *
          ((q - M.center).x / Real.sqrt ((q - M.center).x * (q - M.center).x +
            (q - M.center).y * (q - M.center).y)) = (q - M.center).x := by
        rw [mul_comm ((q - M.center).norm), div_mul_cancel₀ _ hρne, mul_comm,
          div_mul_cancel₀ _ hs]
      rw [hX]
      show q.x - M.center.x + M.center.x = q.x
      ring
    · show (q - M.center).norm * (Real.sqrt ((q - M.center).x * (q - M.center).x +
          (q - M.center).y * (q - M.center).y) / (q - M.center).norm) *
          ((q - M.center).y / Real.sqrt ((q - M.center).x * (q - M.center).x +
            (q - M.center).y * (q - M.center).y)) + M.center.y = q.y
      have hY : (q - M.center).norm * (Real.sqrt ((q - M.center).x * (q - M.center).x +
          (q - M.center).y * (q - M.center).y) / (q - M.center).norm) *
          ((q - M.center).y / Real.sqrt ((q - M.center).x * (q - M.center).x +
            (q - M.center).y * (q - M.center).y)) = (q - M.center).y := by
        rw [mul_comm ((q - M.center).norm), div_mul_cancel₀ _ hρne, mul_comm,
          div_mul_cancel₀ _ hs]
      rw [hY]
      show q.y - M.center.y + M.center.y = q.y
      ring
    · show (q - M.center).norm * ((q - M.center).z / (q - M.center).norm) + M.center.z = q.z
      rw [mul_comm, div_mul_cancel₀ _ hρne]
      show q.z - M.center.z + M.center.z = q.z
      ring

theorem push_pull3 (M : SphericalManifold3) (q : Point3) :
    (M.push_forward (M.pull_back q) - q).norm ≤ 1e-9 := by
  by_cases hcase : (q - M.center).norm > 1e-10
  · rw [push_pull3_exact M q hcase]
    have hqq : q - q = (0 : Point3) := by ext <;> simp
    rw [hqq]
    unfold Point3.norm
    simp
    norm_num
  · rw [SphericalManifold3.pull_back_eval3, SphericalManifold3.push_forward_eval3]
    simp only [Point3.mk_x3, Point3.mk_y3, Point3.mk_z3]
    rw [if_neg hcase]
    have e0 : ((0 : Point3) + M.center) - q = M.center - q := by ext <;> simp
    rw [e0, Point3.norm_sub_symm3]
    have hle : (q - M.center).norm ≤ 1e-10 := not_lt.mp hcase
    linarith [show (1e-10 : ℝ) ≤ 1e-9 by norm_num]

theorem normalized_mem_Ico (t : ℝ) (h1 : -Real.pi < t) (h2 : t ≤ Real.pi) :
    0 ≤ (if t < 0 then t + 2 * Real.pi else t) ∧
      (if t < 0 then t + 2 * Real.pi else t) < 2 * Real.pi := by
  have hπ : 0 < Real.pi := Real.pi_pos
  by_cases h : t < 0
  · rw [if_pos h]
    exact ⟨by linarith, by linarith⟩
  · rw [if_neg h]
    exact ⟨le_of_not_lt h, by linarith⟩

theorem atan2_abs_lt_pi_div_two {x : ℝ} (hx : 0 < x) (y : ℝ) :
    |atan2 y x| < Real.pi / 2 :=
  Complex.abs_arg_lt_pi_div_two_iff.mpr (Or.inl hx)

theorem Point2.sub_eq_zero_iff2 (p q : Point2) : p - q = 0 ↔ p = q := by
  constructor
  · intro h
    have hx := congrArg Point2.x h
    have hy := congrArg Point2.y h
    simp at hx hy
    ext <;> linarith
  · intro h
    rw [h]
    ext <;> simp

theorem Point3.sub_eq_zero_iff3 (p q : Point3) : p - q = 0 ↔ p = q := by
  constructor
  · intro h
    have hx := congrArg Point3.x h
    have hy := congrArg Point3.y h
    have hz := congrArg Point3.z h
    simp at hx hy hz
    ext <;> linarith
  · intro h
    rw [h]
    ext <;> simp

theorem get_new_point_foldl (c : Point3) (l : List (ℝ × Point3)) (a : ℝ) (p : Point3) :
    l.foldl (fun acc wp => (acc.1 + wp.1 * (wp.2 - c).norm, acc.2 + wp.1 • wp.2)) (a, p)
      = (a + (l.map fun wp => wp.1 * (wp.2 - c).norm).sum,
         p + (l.map fun wp => wp.1 • wp.2).sum) := by
  induction l generalizing a p with
  | nil => simp
  | cons hd tl ih =>
      simp only [List.foldl_cons, List.map_cons, List.sum_cons]
      rw [ih]
      refine Prod.ext ?_ ?_
      · show a + hd.1 * (hd.2 - c).norm + _ = a + (hd.1 * (hd.2 - c).norm + _)
        rw [add_assoc]
      · show p + hd.1 • hd.2 + _ = p + (hd.1 • hd.2 + _)
        rw [add_assoc]

theorem SphericalManifold3.get_new_point_eval (M : SphericalManifold3)
    (quad : List (ℝ × Point3)) :
    M.get_new_point quad = M.center +
      (spec_rho_bar M.center quad / (spec_mid_point quad - M.center).norm) •
        (spec_mid_point quad - M.center) := by
  show M.center + ((quad.foldl
        (fun a wp => (a.1 + wp.1 * (wp.2 - M.center).norm, a.2 + wp.1 • wp.2))
        ((0 : ℝ), (0 : Point3))).1 /
      ((quad.foldl
        (fun a wp => (a.1 + wp.1 * (wp.2 - M.center).norm, a.2 + wp.1 • wp.2))
        ((0 : ℝ), (0 : Point3))).2 - M.center).norm) •
      ((quad.foldl
        (fun a wp => (a.1 + wp.1 * (wp.2 - M.center).norm, a.2 + wp.1 • wp.2))
        ((0 : ℝ), (0 : Point3))).2 - M.center) = _
  rw [get_new_point_foldl]
  unfold spec_rho_bar spec_mid_point
  simp only [zero_add]

theorem get_new_point_divisor_eval (M : SphericalManifold3) (quad : List (ℝ × Point3)) :
    get_new_point_divisor M quad = (spec_mid_point quad - M.center).norm := by
  unfold get_new_point_divisor
  rw [get_new_point_foldl]
  unfold spec_mid_point
  simp only [zero_add]

theorem get_new_point3_norm (M : SphericalManifold3) (quad : List (ℝ × Point3))
    (hρ : 0 ≤ spec_rho_bar M.center quad) (hm : spec_mid_point quad ≠ M.center) :
    ((M.get_new_point quad) - M.center).norm = spec_rho_bar M.center quad := by
  rw [SphericalManifold3.get_new_point_eval]
  have e : M.center + (spec_rho_bar M.center quad /
        (spec_mid_point quad - M.center).norm) • (spec_mid_point quad - M.center)
      - M.center
      = (spec_rho_bar M.center quad / (spec_mid_point quad - M.center).norm) •
        (spec_mid_point quad - M.center) := by
    ext <;> simp
  rw [e, Point3.norm_smul3]
  have hRne : spec_mid_point quad - M.center ≠ 0 := by
    intro h
    exact hm ((Point3.sub_eq_zero_iff3 _ _).mp h)
  have hn_pos : 0 < (spec_mid_point quad - M.center).norm := by
    rcases lt_or_eq_of_le (Point3.norm_nonneg3 (spec_mid_point quad - M.center)) with h | h
    · exact h
    · exact absurd ((Point3.norm_eq_zero_iff3 _).mp h.symm) hRne
  rw [abs_of_nonneg (div_nonneg hρ hn_pos.le), div_mul_cancel₀ _ (ne_of_gt hn_pos)]

theorem pull_back2_angle_mem (M : SphericalManifold2) (q : Point2) :
    0 ≤ (M.pull_back q).y ∧ (M.pull_back q).y < 2 * Real.pi := by
  rw [SphericalManifold2.pull_back_eval2]
  simp only [Point2.mk_y2]
  exact normalized_mem_Ico _ (neg_pi_lt_atan2 _ _) (atan2_le_pi _ _)

theorem pull_back3_phi_mem (M : SphericalManifold3) (q : Point3) :
    0 ≤ (M.pull_back q).z ∧ (M.pull_back q).z < 2 * Real.pi := by
  rw [SphericalManifold3.pull_back_eval3]
  simp only [Point3.mk_z3]
  exact normalized_mem_Ico _ (neg_pi_lt_atan2 _ _) (atan2_le_pi _ _)

theorem pull_back3_theta_mem (M : SphericalManifold3) (q : Point3) :
    0 ≤ (M.pull_back q).y ∧ (M.pull_back q).y ≤ Real.pi := by
  rw [SphericalManifold3.pull_back_eval3]
  simp only [Point3.mk_y3]
  exact ⟨(atan2_nonneg_iff _ _).mpr (Real.sqrt_nonneg _), atan2_le_pi _ _⟩

theorem pull_back2_fourth_quadrant (M : SphericalManifold2) (q : Point2)
    (hx : 0 < (q - M.center).x) (hy : (q - M.center).y < 0) :
    2 * Real.pi - Real.pi / 2 < (M.pull_back q).y ∧ (M.pull_back q).y < 2 * Real.pi := by
  rw [SphericalManifold2.pull_back_eval2]
  simp only [Point2.mk_y2]
  have ht_neg : atan2 (q - M.center).y (q - M.center).x < 0 := (atan2_neg_iff _ _).mpr hy
  have ht_abs := atan2_abs_lt_pi_div_two hx (q - M.center).y
  have ht_lb : -(Real.pi / 2) < atan2 (q - M.center).y (q - M.center).x :=
    (abs_lt.mp ht_abs).1
  rw [if_pos ht_neg]
  exact ⟨by linarith, by linarith⟩

theorem pull_back3_fourth_quadrant (M : SphericalManifold3) (q : Point3)
    (hx : 0 < (q - M.center).x) (hy : (q - M.center).y < 0) :
    2 * Real.pi - Real.pi / 2 < (M.pull_back q).z ∧ (M.pull_back q).z < 2 * Real.pi := by
  rw [SphericalManifold3.pull_back_eval3]
  simp only [Point3.mk_z3]
  have ht_neg : atan2 (q - M.center).y (q - M.center).x < 0 := (atan2_neg_iff _ _).mpr hy
  have ht_abs := atan2_abs_lt_pi_div_two hx (q - M.center).y
  have ht_lb : -(Real.pi / 2) < atan2 (q - M.center).y (q - M.center).x :=
    (abs_lt.mp ht_abs).1
  rw [if_pos ht_neg]
  exact ⟨by linarith, by linarith⟩

/-!
Claim theorems.
-/

/-- C2: for every valid chart point (radius above the 1e-10 threshold and
angles in the injectivity range of the chart) the pull-back of the
push-forward is exactly the original chart point, and for every ambient point
the push-forward of the pull-back is within 1e-9 of the original point (the
distance is in fact 0 when the radius exceeds 1e-10 and at most 1e-10
otherwise); this holds in ambient dimensions 2 and 3. -/
theorem claim_C2_round_trip :
    (∀ (M : SphericalManifold2) (p : Point2),
        p.x > 1e-10 → 0 ≤ p.y → p.y < 2 * Real.pi →
          M.pull_back (M.push_forward p) = p)
    ∧ (∀ (M : SphericalManifold2) (q : Point2),
        (M.push_forward (M.pull_back q) - q).norm ≤ 1e-9)
    ∧ (∀ (M : SphericalManifold3) (p : Point3),
        p.x > 1e-10 → 0 < p.y → p.y < Real.pi → 0 ≤ p.z → p.z < 2 * Real.pi →
          M.pull_back (M.push_forward p) = p)
    ∧ (∀ (M : SphericalManifold3) (q : Point3),
        (M.push_forward (M.pull_back q) - q).norm ≤ 1e-9) :=
  ⟨pull_push2, push_pull2, pull_push3, push_pull3⟩

/-- Witness for C2 at the chart points (1, 0) and (1, pi/2, 0) and the ambient
points (3, 4) and (3, 4, 5). -/
theorem claim_C2_round_trip_witness :
    (SphericalManifold2.mk ⟨0, 0⟩).pull_back
        ((SphericalManifold2.mk ⟨0, 0⟩).push_forward ⟨1, 0⟩) = (⟨1, 0⟩ : Point2)
    ∧ (SphericalManifold3.mk ⟨0, 0, 0⟩).pull_back
        ((SphericalManifold3.mk ⟨0, 0, 0⟩).push_forward ⟨1, Real.pi / 2, 0⟩)
        = (⟨1, Real.pi / 2, 0⟩ : Point3)
    ∧ ((SphericalManifold2.mk ⟨0, 0⟩).push_forward
        ((SphericalManifold2.mk ⟨0, 0⟩).pull_back ⟨3, 4⟩) - ⟨3, 4⟩).norm ≤ 1e-9
    ∧ ((SphericalManifold3.mk ⟨0, 0, 0⟩).push_forward
        ((SphericalManifold3.mk ⟨0, 0, 0⟩).pull_back ⟨3, 4, 5⟩) - ⟨3, 4, 5⟩).norm ≤ 1e-9 :=
  ⟨claim_C2_round_trip.1 _ _ (by norm_num) le_rfl Real.two_pi_pos,
    claim_C2_round_trip.2.2.1 _ _ (by norm_num) (by positivity)
      (by linarith [Real.pi_pos]) le_rfl Real.two_pi_pos,
    claim_C2_round_trip.2.1 _ _,
    claim_C2_round_trip.2.2.2 _ _⟩

/-- C4: pull_back always returns the 2-D angle and the 3-D azimuthal angle phi
inside [0, 2 pi) thanks to the shift by 2 pi of negative atan2 values, while
the 3-D polar angle theta is not shifted and lies in [0, pi]; moreover, for an
ambient point with positive x and negative y relative to the center, the
returned periodic angle lies strictly between 2 pi - pi / 2 and 2 pi (hence
close to 2 pi - pi / 2 rather than the raw negative value - pi / 2). -/
theorem claim_C4_angle_normalization :
    (∀ (M : SphericalManifold2) (q : Point2),
        0 ≤ (M.pull_back q).y ∧ (M.pull_back q).y < 2 * Real.pi)
    ∧ (∀ (M : SphericalManifold3) (q : Point3),
        0 ≤ (M.pull_back q).z ∧ (M.pull_back q).z < 2 * Real.pi)
    ∧ (∀ (M : SphericalManifold3) (q : Point3),
        0 ≤ (M.pull_back q).y ∧ (M.pull_back q).y ≤ Real.pi)
    ∧ (∀ (M : SphericalManifold2) (q : Point2),
        0 < (q - M.center).x → (q - M.center).y < 0 →
          2 * Real.pi - Real.pi / 2 < (M.pull_back q).y ∧ (M.pull_back q).y < 2 * Real.pi)
    ∧ (∀ (M : SphericalManifold3) (q : Point3),
        0 < (q - M.center).x → (q - M.center).y < 0 →
          2 * Real.pi - Real.pi / 2 < (M.pull_back q).z ∧ (M.pull_back q).z < 2 * Real.pi) :=
  ⟨pull_back2_angle_mem, pull_back3_phi_mem, pull_back3_theta_mem,
    pull_back2_fourth_quadrant, pull_back3_fourth_quadrant⟩

/-- Witness for C4 at the ambient point (1, -1) and (1, -1, 7) with center at
the origin: the periodic angle lands in (2 pi - pi / 2, 2 pi). -/
theorem claim_C4_angle_normalization_witness :
    (2 * Real.pi - Real.pi / 2 <
        ((SphericalManifold2.mk ⟨0, 0⟩).pull_back ⟨1, -1⟩).y
      ∧ ((SphericalManifold2.mk ⟨0, 0⟩).pull_back ⟨1, -1⟩).y < 2 * Real.pi)
    ∧ (2 * Real.pi - Real.pi / 2 <
        ((SphericalManifold3.mk ⟨0, 0, 0⟩).pull_back ⟨1, -1, 7⟩).z
      ∧ ((SphericalManifold3.mk ⟨0, 0, 0⟩).pull_back ⟨1, -1, 7⟩).z < 2 * Real.pi) :=
  ⟨claim_C4_angle_normalization.2.2.2.1 _ _ (by norm_num) (by norm_num),
    claim_C4_angle_normalization.2.2.2.2 _ _ (by norm_num) (by norm_num)⟩

/-- C5: push_forward with a radius at least 0 and below the 1e-10 threshold
short-circuits to the chart center, whatever the angular coordinates are, in
ambient dimensions 2 and 3. -/
theorem claim_C5_degenerate_origin :
    (∀ (M : SphericalManifold2) (sp : Point2), 0 ≤ sp.x → sp.x < 1e-10 →
        M.push_forward sp = M.center)
    ∧ (∀ (M : SphericalManifold3) (sp : Point3), 0 ≤ sp.x → sp.x < 1e-10 →
        M.push_forward sp = M.center) := by
  constructor
  · intro M sp h0 h1
    rw [SphericalManifold2.push_forward_eval2, if_neg (not_lt.mpr h1.le)]
    ext <;> simp
  · intro M sp h0 h1
    rw [SphericalManifold3.push_forward_eval3, if_neg (not_lt.mpr h1.le)]
    ext <;> simp

/-- Witness for C5 at radius 0 with arbitrary angles and off-origin centers. -/
theorem claim_C5_degenerate_origin_witness :
    (SphericalManifold2.mk ⟨5, 6⟩).push_forward ⟨0, 3⟩ = (⟨5, 6⟩ : Point2)
    ∧ (SphericalManifold3.mk ⟨1, 2, 3⟩).push_forward ⟨0, 3, 4⟩ = (⟨1, 2, 3⟩ : Point3) :=
  ⟨claim_C5_degenerate_origin.1 _ _ le_rfl (by norm_num),
    claim_C5_degenerate_origin.2 _ _ le_rfl (by norm_num)⟩

/-- C6 counterexample: in ambient dimension 3 the periodicity entry of the
polar angle theta (index 1) is zero rather than of magnitude 2 pi, so it is
false that every angular coordinate carries a non-zero 2 pi entry (only the
last coordinate, the azimuth, does). -/
theorem claim_C6_periodicity_counterexample :
    get_periodicity3.y = 0 ∧ ¬(|get_periodicity3.y| = 2 * Real.pi) := by
  constructor
  · rfl
  · rw [show get_periodicity3.y = (0 : ℝ) from rfl, abs_zero]
    exact fun h => absurd h.symm (ne_of_gt Real.two_pi_pos)

@[simp] theorem SphericalManifold2.mk_center2 (c : Point2) :
    (SphericalManifold2.mk c).center = c := rfl

@[simp] theorem SphericalManifold3.mk_center3 (c : Point3) :
    (SphericalManifold3.mk c).center = c := rfl

theorem norm_sub_zero_unit_x :
    ((⟨1, 0, 0⟩ : Point3) - (SphericalManifold3.mk ⟨0, 0, 0⟩).center).norm = 1 := by
  have e1 : (⟨1, 0, 0⟩ : Point3) - (SphericalManifold3.mk ⟨0, 0, 0⟩).center
      = (⟨1, 0, 0⟩ : Point3) := by
    ext <;> simp
  rw [e1]
  unfold Point3.norm
  simp only [Point3.mk_x3, Point3.mk_y3, Point3.mk_z3]
  rw [show (1 : ℝ) ^ 2 + 0 ^ 2 + 0 ^ 2 = 1 by norm_num, Real.sqrt_one]

theorem norm_sub_zero_neg_unit_x :
    ((⟨-1, 0, 0⟩ : Point3) - (SphericalManifold3.mk ⟨0, 0, 0⟩).center).norm = 1 := by
  have e1 : (⟨-1, 0, 0⟩ : Point3) - (SphericalManifold3.mk ⟨0, 0, 0⟩).center
      = (⟨-1, 0, 0⟩ : Point3) := by
    ext <;> simp
  rw [e1]
  unfold Point3.norm
  simp only [Point3.mk_x3, Point3.mk_y3, Point3.mk_z3]
  rw [show (-1 : ℝ) ^ 2 + 0 ^ 2 + 0 ^ 2 = 1 by norm_num, Real.sqrt_one]

theorem spec_mid_point_antipodal :
    spec_mid_point [((1 : ℝ) / 2, (⟨1, 0, 0⟩ : Point3)), ((1 : ℝ) / 2, ⟨-1, 0, 0⟩)]
      = (⟨0, 0, 0⟩ : Point3) := by
  unfold spec_mid_point
  simp only [List.map_cons, List.map_nil, List.sum_cons, List.sum_nil]
  ext <;> simp

/-- C3 counterexample: the two antipodal unit points (1,0,0) and (-1,0,0), at
the same distance 1 from the center, with weights one half each summing to 1,
are mapped by the 3-D get_new_point to the center itself (their weighted
ambient average coincides with the center, so the unguarded rescaling
degenerates), at distance 0, not 1, from the center. -/
theorem claim_C3_equal_radius_counterexample :
    ((⟨1, 0, 0⟩ : Point3) - (SphericalManifold3.mk ⟨0, 0, 0⟩).center).norm = 1
    ∧ ((⟨-1, 0, 0⟩ : Point3) - (SphericalManifold3.mk ⟨0, 0, 0⟩).center).norm = 1
    ∧ (1 : ℝ) / 2 + 1 / 2 = 1
    ∧ ((SphericalManifold3.mk ⟨0, 0, 0⟩).get_new_point
          [((1 : ℝ) / 2, ⟨1, 0, 0⟩), ((1 : ℝ) / 2, ⟨-1, 0, 0⟩)]
        - (SphericalManifold3.mk ⟨0, 0, 0⟩).center).norm = 0
    ∧ (0 : ℝ) ≠ 1 := by
  refine ⟨norm_sub_zero_unit_x, norm_sub_zero_neg_unit_x, by norm_num, ?_, by norm_num⟩
  rw [SphericalManifold3.get_new_point_eval, spec_mid_point_antipodal]
  have e0 : (⟨0, 0, 0⟩ : Point3) - (SphericalManifold3.mk ⟨0, 0, 0⟩).center
      = (0 : Point3) := by
    ext <;> simp
  rw [e0]
  have esm : (spec_rho_bar (SphericalManifold3.mk ⟨0, 0, 0⟩).center
        [((1 : ℝ) / 2, ⟨1, 0, 0⟩), ((1 : ℝ) / 2, ⟨-1, 0, 0⟩)] /
      (0 : Point3).norm) • (0 : Point3) = (0 : Point3) := by
    ext <;> simp
  rw [esm]
  have efinal : (SphericalManifold3.mk ⟨0, 0, 0⟩).center + (0 : Point3)
      - (SphericalManifold3.mk ⟨0, 0, 0⟩).center = (0 : Point3) := by
    ext <;> simp
  rw [efinal]
  unfold Point3.norm
  simp only [Point3.zero_x3, Point3.zero_y3, Point3.zero_z3]
  rw [show (0 : ℝ) ^ 2 + 0 ^ 2 + 0 ^ 2 = 0 by norm_num, Real.sqrt_zero]

/-- C3 amended: for two ambient points at the same distance r from the center
and two weights summing to 1, the point returned by the 3-D get_new_point lies
exactly at distance r from the center, provided the weighted ambient average
of the two points does not coincide with the center (that degenerate input,
the subject of C10, makes the source divide by zero). -/
theorem claim_C3_equal_radius_amended (M : SphericalManifold3) (p q : Point3)
    (w1 w2 r : ℝ)
    (hp : (p - M.center).norm = r) (hq : (q - M.center).norm = r)
    (hw : w1 + w2 = 1)
    (hm : spec_mid_point [(w1, p), (w2, q)] ≠ M.center) :
    ((M.get_new_point [(w1, p), (w2, q)]) - M.center).norm = r := by
  have hr0 : 0 ≤ r := hp ▸ Point3.norm_nonneg3 _
  have hρbar : spec_rho_bar M.center [(w1, p), (w2, q)] = r := by
    unfold spec_rho_bar
    simp only [List.map_cons, List.map_nil, List.sum_cons, List.sum_nil]
    rw [hp, hq]
    linear_combination r * hw
  rw [get_new_point3_norm M _ (by rw [hρbar]; exact hr0) hm, hρbar]

/-- Witness for the amended C3: the unit points (1,0,0) and (0,1,0) with
weights one half each; their mid point (1/2, 1/2, 0) is away from the center
and the returned point is exactly at distance 1. -/
theorem claim_C3_equal_radius_amended_witness :
    (((SphericalManifold3.mk ⟨0, 0, 0⟩).get_new_point
        [((1 : ℝ) / 2, ⟨1, 0, 0⟩), ((1 : ℝ) / 2, ⟨0, 1, 0⟩)])
      - (SphericalManifold3.mk ⟨0, 0, 0⟩).center).norm = 1 := by
  apply claim_C3_equal_radius_amended
  · exact norm_sub_zero_unit_x
  · have e1 : (⟨0, 1, 0⟩ : Point3) - (SphericalManifold3.mk ⟨0, 0, 0⟩).center
        = (⟨0, 1, 0⟩ : Point3) := by
      ext <;> simp
    rw [e1]
    unfold Point3.norm
    simp only [Point3.mk_x3, Point3.mk_y3, Point3.mk_z3]
    rw [show (0 : ℝ) ^ 2 + 1 ^ 2 + 0 ^ 2 = 1 by norm_num, Real.sqrt_one]
  · norm_num
  · have hmid : spec_mid_point [((1 : ℝ) / 2, (⟨1, 0, 0⟩ : Point3)),
        ((1 : ℝ) / 2, ⟨0, 1, 0⟩)] = (⟨1 / 2, 1 / 2, 0⟩ : Point3) := by
      unfold spec_mid_point
      simp only [List.map_cons, List.map_nil, List.sum_cons, List.sum_nil]
      ext <;> simp
    rw [hmid]
    intro h
    have hx := congrArg Point3.x h
    simp at hx

/-- C10: at the valid input made of the two antipodal points (1,0,0) and
(-1,0,0), both at positive distance from the center, with weights one half
each summing to 1, the divisor R.norm() that the 3-D get_new_point uses for
its unguarded rescaling division is exactly zero: the formula is well-defined
only when the weighted ambient average differs from the center. -/
theorem claim_C10_unguarded_zero_divisor :
    (1 : ℝ) / 2 + 1 / 2 = 1
    ∧ 0 < ((⟨1, 0, 0⟩ : Point3) - (SphericalManifold3.mk ⟨0, 0, 0⟩).center).norm
    ∧ 0 < ((⟨-1, 0, 0⟩ : Point3) - (SphericalManifold3.mk ⟨0, 0, 0⟩).center).norm
    ∧ get_new_point_divisor (SphericalManifold3.mk ⟨0, 0, 0⟩)
        [((1 : ℝ) / 2, ⟨1, 0, 0⟩), ((1 : ℝ) / 2, ⟨-1, 0, 0⟩)] = 0 := by
  refine ⟨by norm_num, ?_, ?_, ?_⟩
  · rw [norm_sub_zero_unit_x]
    norm_num
  · rw [norm_sub_zero_neg_unit_x]
    norm_num
  · rw [get_new_point_divisor_eval, spec_mid_point_antipodal]
    have e0 : (⟨0, 0, 0⟩ : Point3) - (SphericalManifold3.mk ⟨0, 0, 0⟩).center
        = (0 : Point3) := by
      ext <;> simp
    rw [e0]
    unfold Point3.norm
    simp only [Point3.zero_x3, Point3.zero_y3, Point3.zero_z3]
    rw [show (0 : ℝ) ^ 2 + 0 ^ 2 + 0 ^ 2 = 0 by norm_num, Real.sqrt_zero]

/-- C1: for weights summing to 1, the 3-D get_new_point returns
center + R where R is the weighted ambient average re-centered by the center
and rescaled by rho-bar / norm(R) (so that, whenever the average differs from
the center and rho-bar is non-negative, the result lies at distance exactly
rho-bar from the center), while the 2-D instance returns the generic
chart-space rule: push_forward of the weighted combination of the pull_backs. -/
theorem claim_C1_get_new_point_rule (M3 : SphericalManifold3)
    (quad3 : List (ℝ × Point3)) (M2 : SphericalManifold2)
    (quad2 : List (ℝ × Point2))
    (hw : (quad3.map Prod.fst).sum = 1)
    (hρ : 0 ≤ spec_rho_bar M3.center quad3)
    (hm : spec_mid_point quad3 ≠ M3.center) :
    M3.get_new_point quad3 = M3.center +
        (spec_rho_bar M3.center quad3 / (spec_mid_point quad3 - M3.center).norm) •
          (spec_mid_point quad3 - M3.center)
      ∧ ((M3.get_new_point quad3) - M3.center).norm = spec_rho_bar M3.center quad3
      ∧ M2.get_new_point quad2
          = M2.push_forward ((quad2.map fun wp => wp.1 • M2.pull_back wp.2).sum) :=
  ⟨SphericalManifold3.get_new_point_eval M3 quad3, get_new_point3_norm M3 quad3 hρ hm, rfl⟩

/-- Witness for C1: a single point (2,0,0) with weight 1 about the origin, and
a 2-D chart with the empty quadrature. -/
theorem claim_C1_get_new_point_rule_witness :
    (SphericalManifold3.mk ⟨0, 0, 0⟩).get_new_point [((1 : ℝ), ⟨2, 0, 0⟩)]
        = (SphericalManifold3.mk ⟨0, 0, 0⟩).center +
          (spec_rho_bar (SphericalManifold3.mk ⟨0, 0, 0⟩).center [((1 : ℝ), ⟨2, 0, 0⟩)] /
            (spec_mid_point [((1 : ℝ), ⟨2, 0, 0⟩)]
              - (SphericalManifold3.mk ⟨0, 0, 0⟩).center).norm) •
          (spec_mid_point [((1 : ℝ), ⟨2, 0, 0⟩)]
            - (SphericalManifold3.mk ⟨0, 0, 0⟩).center)
      ∧ ((SphericalManifold3.mk ⟨0, 0, 0⟩).get_new_point [((1 : ℝ), ⟨2, 0, 0⟩)]
          - (SphericalManifold3.mk ⟨0, 0, 0⟩).center).norm
        = spec_rho_bar (SphericalManifold3.mk ⟨0, 0, 0⟩).center [((1 : ℝ), ⟨2, 0, 0⟩)]
      ∧ (SphericalManifold2.mk ⟨0, 0⟩).get_new_point []
          = (SphericalManifold2.mk ⟨0, 0⟩).push_forward
            (([] : List (ℝ × Point2)).map
              (fun wp => wp.1 • (SphericalManifold2.mk ⟨0, 0⟩).pull_back wp.2)).sum := by
  apply claim_C1_get_new_point_rule
  · simp
  · unfold spec_rho_bar
    simp only [List.map_cons, List.map_nil, List.sum_cons, List.sum_nil]
    have h := Point3.norm_nonneg3 ((⟨2, 0, 0⟩ : Point3)
      - (SphericalManifold3.mk ⟨0, 0, 0⟩).center)
    linarith
  · have hmid : spec_mid_point [((1 : ℝ), (⟨2, 0, 0⟩ : Point3))]
        = (⟨2, 0, 0⟩ : Point3) := by
      unfold spec_mid_point
      simp only [List.map_cons, List.map_nil, List.sum_cons, List.sum_nil]
      ext <;> simp
    rw [hmid]
    intro h
    have hx := congrArg Point3.x h
    simp at hx

/-- C6 amended: the periodicity vector fixed at construction has exactly one
non-zero entry, at the last coordinate (the 2-D angle, the 3-D azimuth phi),
of value 2 pi; the 3-D polar angle theta entry stays zero. -/
theorem claim_C6_periodicity_amended :
    get_periodicity2.x = 0 ∧ get_periodicity2.y = 2 * Real.pi
    ∧ get_periodicity3.x = 0 ∧ get_periodicity3.y = 0
    ∧ get_periodicity3.z = 2 * Real.pi ∧ 2 * Real.pi ≠ 0 :=
  ⟨rfl, rfl, rfl, rfl, rfl, ne_of_gt Real.two_pi_pos⟩

/-- C7: after laplace_transformation, every vertex index carrying an entry of
the constraint map sits exactly at its mapped target (the Dirichlet data is
imposed exactly, for any behaviour of the external linear solver on the free
unknowns), and the cell connectivity, the boundary faces with their ids, the
material ids and the vertex count are unchanged: only vertex coordinates are
rewritten. -/
theorem claim_C7_laplace_frame {dim : ℕ} (tria : Mesh dim)
    (new_points : ℕ → Option (Pt dim)) (free_solution : ℕ → Pt dim) :
    (∀ (i : ℕ) (p : Pt dim), new_points i = some p →
        (GridGenerator.laplace_transformation tria new_points free_solution).vertex_pos i
          = p)
    ∧ (GridGenerator.laplace_transformation tria new_points free_solution).cells
        = tria.cells
    ∧ (GridGenerator.laplace_transformation tria new_points free_solution).faces
        = tria.faces
    ∧ (GridGenerator.laplace_transformation tria new_points free_solution).material_ids
        = tria.material_ids
    ∧ (GridGenerator.laplace_transformation tria new_points free_solution).n_vertices
        = tria.n_vertices := by
  refine ⟨?_, rfl, rfl, rfl, rfl⟩
  intro i p hp
  funext k
  show GridGenerator.laplace_solve
      (fun j => Option.map (fun v => v k) (new_points j))
      (fun j => free_solution j k) i = p k
  simp only [GridGenerator.laplace_solve, hp, Option.map_some']

/-- Witness for C7: a one-cell mesh whose vertex 0 is constrained to the
constant target 5 while the external solver answers 0 everywhere. -/
theorem claim_C7_laplace_frame_witness :
    (GridGenerator.laplace_transformation (⟨1, fun _ _ => 0, [[0]], [], []⟩ : Mesh 2)
        (fun i => if i = 0 then some (fun _ => (5 : ℝ)) else none)
        (fun _ _ => 0)).vertex_pos 0 = (fun _ => (5 : ℝ)) :=
  (claim_C7_laplace_frame _ _ _).1 0 (fun _ => (5 : ℝ)) (by simp)

/-- C8: the mesh-construction routines reject invalid parameters with the
documented failure kinds before any mesh is produced: a repetitions vector of
the right length containing a zero entry makes subdivided_hyper_rectangle
fail with the invalid-repetitions condition, inverted (or non-positive) shell
radii make hyper_shell fail with the invalid-radii condition, and every 1-D
call of hyper_L, hyper_ball, hyper_shell and hyper_cube_slit fails with the
unsupported-dimension condition. -/
theorem claim_C8_invalid_parameter_rejection :
    (∀ (dim : ℕ) (reps : List ℕ) (p1 p2 : Pt dim) (c : Bool),
        reps.length = dim → 0 ∈ reps →
          GridGenerator.subdivided_hyper_rectangle reps p1 p2 c
            = Except.error (MeshError.invalidRepetitions 0))
    ∧ (∀ (dim : ℕ) (center : Pt dim) (irad orad : ℝ) (n : ℕ),
        dim ≠ 1 → orad ≤ irad →
          GridGenerator.hyper_shell dim center irad orad n
            = Except.error MeshError.invalidRadii)
    ∧ (∀ (l r : ℝ), GridGenerator.hyper_L 1 l r
        = Except.error (MeshError.unsupportedDimension 1))
    ∧ (∀ (center : Pt 1) (r : ℝ), GridGenerator.hyper_ball 1 center r
        = Except.error (MeshError.unsupportedDimension 1))
    ∧ (∀ (center : Pt 1) (irad orad : ℝ) (n : ℕ),
        GridGenerator.hyper_shell 1 center irad orad n
          = Except.error (MeshError.unsupportedDimension 1))
    ∧ (∀ (l r : ℝ) (c : Bool), GridGenerator.hyper_cube_slit 1 l r c
        = Except.error (MeshError.unsupportedDimension 1)) := by
  refine ⟨?_, ?_, ?_, ?_, ?_, ?_⟩
  · intro dim reps p1 p2 c hlen hmem
    unfold GridGenerator.subdivided_hyper_rectangle
    rw [if_neg (not_ne_iff.mpr hlen), if_pos hmem]
  · intro dim center irad orad n hdim hord
    unfold GridGenerator.hyper_shell
    rw [if_neg hdim, if_pos (Or.inr (Or.inr hord))]
  · intro l r
    unfold GridGenerator.hyper_L
    rw [if_pos rfl]
  · intro center r
    unfold GridGenerator.hyper_ball
    rw [if_pos rfl]
  · intro center irad orad n
    unfold GridGenerator.hyper_shell
    rw [if_pos rfl]
  · intro l r c
    unfold GridGenerator.hyper_cube_slit
    rw [if_pos rfl]

/-- Witness for C8: the repetitions vector [0, 2] of length 2 and the inverted
radii 2 >= 1 are rejected with the documented conditions. -/
theorem claim_C8_invalid_parameter_rejection_witness :
    GridGenerator.subdivided_hyper_rectangle [0, 2] (fun _ => (0 : ℝ))
        (fun _ => (1 : ℝ)) true
      = (Except.error (MeshError.invalidRepetitions 0) : Except MeshError (Mesh 2))
    ∧ GridGenerator.hyper_shell 2 (fun _ => (0 : ℝ)) 2 1 0
      = Except.error MeshError.invalidRadii :=
  ⟨claim_C8_invalid_parameter_rejection.1 2 [0, 2] _ _ true rfl (by simp),
    claim_C8_invalid_parameter_rejection.2.1 2 _ 2 1 0 (by norm_num) (by norm_num)⟩

/-- C9: with colorize set, the face of a (subdivided) hyper rectangle at the
minimum coordinate of axis k carries boundary id 2k and the face at the
maximum coordinate carries 2k+1, both faces being part of the generated mesh;
on the 2-D unit square this yields id 0 at x=0, id 1 at x=1, id 2 at y=0 and
id 3 at y=1. -/
theorem claim_C9_colorize_convention (dim : ℕ) (p1 p2 : Pt dim) (k : Fin dim) :
    ((GridGenerator.rectangle_face p1 p2 true k false).boundary_id = 2 * k.val
      ∧ (GridGenerator.rectangle_face p1 p2 true k false).coordinate
          = min (p1 k) (p2 k))
    ∧ ((GridGenerator.rectangle_face p1 p2 true k true).boundary_id = 2 * k.val + 1
      ∧ (GridGenerator.rectangle_face p1 p2 true k true).coordinate
          = max (p1 k) (p2 k))
    ∧ GridGenerator.rectangle_face p1 p2 true k false
        ∈ (GridGenerator.hyper_rectangle p1 p2 true).faces
    ∧ GridGenerator.rectangle_face p1 p2 true k true
        ∈ (GridGenerator.hyper_rectangle p1 p2 true).faces
    ∧ (∀ (reps : List ℕ) (m : Mesh dim),
        GridGenerator.subdivided_hyper_rectangle reps p1 p2 true = Except.ok m →
          m.faces = (GridGenerator.hyper_rectangle p1 p2 true).faces)
    ∧ ((GridGenerator.hyper_rectangle (fun _ => (0 : ℝ)) (fun _ => (1 : ℝ)) true
          : Mesh 2).faces.map fun f => (f.axis.val, f.coordinate, f.boundary_id))
        = [(0, (0 : ℝ), 0), (0, 1, 1), (1, 0, 2), (1, 1, 3)] := by
  refine ⟨⟨by simp [GridGenerator.rectangle_face], rfl⟩,
    ⟨by simp [GridGenerator.rectangle_face], rfl⟩, ?_, ?_, ?_, ?_⟩
  · show GridGenerator.rectangle_face p1 p2 true k false
        ∈ (List.finRange dim).flatMap fun j =>
          [GridGenerator.rectangle_face p1 p2 true j false,
            GridGenerator.rectangle_face p1 p2 true j true]
    exact List.mem_flatMap.mpr ⟨k, List.mem_finRange k, by simp⟩
  · show GridGenerator.rectangle_face p1 p2 true k true
        ∈ (List.finRange dim).flatMap fun j =>
          [GridGenerator.rectangle_face p1 p2 true j false,
            GridGenerator.rectangle_face p1 p2 true j true]
    exact List.mem_flatMap.mpr ⟨k, List.mem_finRange k, by simp⟩
  · intro reps m h
    unfold GridGenerator.subdivided_hyper_rectangle at h
    split_ifs at h
    injection h with h'
    rw [← h']
  · have hfr : List.finRange 2 = [(0 : Fin 2), 1] := by decide
    show ((List.finRange 2).flatMap fun j =>
        [GridGenerator.rectangle_face (fun _ => (0 : ℝ)) (fun _ => (1 : ℝ)) true j false,
          GridGenerator.rectangle_face (fun _ => (0 : ℝ)) (fun _ => (1 : ℝ)) true j true]).map
        (fun f => (f.axis.val, f.coordinate, f.boundary_id)) = _
    rw [hfr]
    simp [GridGenerator.rectangle_face]

/-- Witness for C9: on the unit square with the valid repetitions vector
[1, 1], the subdivided rectangle carries exactly the colorized faces of the
plain rectangle. -/
theorem claim_C9_colorize_convention_witness :
    ({ GridGenerator.hyper_rectangle (fun _ => (0 : ℝ)) (fun _ => (1 : ℝ)) true with
        cells := (List.range ([1, 1] : List ℕ).prod).map fun i => [i] } : Mesh 2).faces
      = (GridGenerator.hyper_rectangle (fun _ => (0 : ℝ)) (fun _ => (1 : ℝ)) true).faces :=
  (claim_C9_colorize_convention 2 (fun _ => (0 : ℝ)) (fun _ => (1 : ℝ)) 0).2.2.2.2.1
    [1, 1] _ rfl

end
